import Mathlib

/-!
Shallow embedding of the CSV ingestion routine `loadCourtsData` and the
`filteredCourts` predicate of `src/components/blocks/demo.tsx` from the
NYC Tennis Club repository, together with proofs of the specified
properties of the delimited-record parser.

Text is modelled as `List Char`; the scanner state mirrors the four
mutable locals of the source (`currentRow`, `currentField`, `inQuotes`,
`courts`); JavaScript numbers are modelled exactly as rationals (the
source only ever reads finite decimal literals, compares against `0`,
and substitutes `0` for `NaN` via `|| 0`).
-/

/-- Characters removed by the JavaScript `String.prototype.trim` used in
`loadCourtsData` (the ASCII whitespace subset: space, tab, line feed,
carriage return, vertical tab, form feed; the rarely-relevant Unicode
space characters are not modelled and never occur in the inputs below). -/
def isWSJS (c : Char) : Bool :=
  c = ' ' || c = '\t' || c = '\n' || c = '\r' || c = Char.ofNat 11 || c = Char.ofNat 12

/-- JavaScript `s.trim()`: drop whitespace from both ends of the field. -/
def trimJS (cs : List Char) : List Char :=
  ((cs.dropWhile isWSJS).reverse.dropWhile isWSJS).reverse

/-- JavaScript `csvText.split('\n')` (line 32 of the source): split on every
line-feed character; the result is always non-empty, and splitting the empty
string yields `[[]]`, exactly as in JavaScript. -/
def splitLines : List Char → List (List Char)
  | [] => [[]]
  | c :: rest =>
    let ls := splitLines rest
    if c = '\n' then [] :: ls
    else
      match ls with
      | l :: tl => (c :: l) :: tl
      | [] => [[c]]

/-- Value of a run of decimal digit characters. -/
def digitsVal (ds : List Char) : Nat :=
  ds.foldl (fun a c => 10 * a + (c.toNat - 48)) 0

/-- JavaScript `parseInt(s)` in its radix-10 form (line 83 of the source):
skip leading whitespace, read an optional sign and then the longest run of
decimal digits; `none` models the `NaN` result when no digit is found.
The `0x` hexadecimal prefix form of `parseInt` is not modelled. -/
def parseIntOpt (cs : List Char) : Option Int :=
  let cs1 := cs.dropWhile isWSJS
  match cs1 with
  | '-' :: rest =>
    let ds := rest.takeWhile Char.isDigit
    if ds.isEmpty then none else some (-(digitsVal ds : Int))
  | '+' :: rest =>
    let ds := rest.takeWhile Char.isDigit
    if ds.isEmpty then none else some ((digitsVal ds : Int))
  | _ =>
    let ds := cs1.takeWhile Char.isDigit
    if ds.isEmpty then none else some ((digitsVal ds : Int))

/-- Exponent part of a JavaScript decimal literal: `e`/`E`, an optional
sign, and the longest run of digits; an absent or digit-less exponent
contributes the factor `10 ^ 0`. -/
def parseExp (cs : List Char) : Int :=
  match cs with
  | c :: rest =>
    if c = 'e' || c = 'E' then
      match rest with
      | '-' :: r =>
        let ds := r.takeWhile Char.isDigit
        if ds.isEmpty then 0 else -(digitsVal ds : Int)
      | '+' :: r =>
        let ds := r.takeWhile Char.isDigit
        if ds.isEmpty then 0 else (digitsVal ds : Int)
      | r =>
        let ds := r.takeWhile Char.isDigit
        if ds.isEmpty then 0 else (digitsVal ds : Int)
    else 0
  | [] => 0

/-- JavaScript `parseFloat(s)` on finite decimal literals (lines 87-88 of
the source), as an exact rational: skip leading whitespace, read an
optional sign, integer digits, an optional fraction, and an optional
exponent; `none` models the `NaN` result when neither integer nor
fraction digits are present.  The value `sgn * I.F * 10 ^ e` is built as a
single quotient of integers so that it evaluates by reduction.  The
`Infinity` literal is not modelled. -/
def parseFloatOpt (cs : List Char) : Option ℚ :=
  let cs1 := cs.dropWhile isWSJS
  let sgn : Int := match cs1 with | '-' :: _ => -1 | _ => 1
  let cs2 : List Char := match cs1 with | '-' :: r => r | '+' :: r => r | _ => cs1
  let intD := cs2.takeWhile Char.isDigit
  let rest := cs2.dropWhile Char.isDigit
  let fracD : List Char := match rest with | '.' :: r => r.takeWhile Char.isDigit | _ => []
  let rest2 : List Char := match rest with | '.' :: r => r.dropWhile Char.isDigit | _ => rest
  if intD.isEmpty && fracD.isEmpty then none
  else
    let mantissa : Int :=
      sgn * ((digitsVal intD * 10 ^ fracD.length + digitsVal fracD : Nat) : Int)
    let e := parseExp rest2
    if 0 ≤ e then
      some (mkRat (mantissa * (10 : Int) ^ e.toNat) (10 ^ fracD.length))
    else
      some (mkRat mantissa (10 ^ fracD.length * 10 ^ e.natAbs))

/-- The `CourtData` interface (lines 9-22 of the source). -/
structure CourtData where
  id : Nat
  name : String
  address : String
  borough : String
  surface : String
  permitStatus : String
  courts : Int
  datesOpen : String
  hours : String
  description : String
  lat : ℚ
  lng : ℚ
deriving DecidableEq, Repr

/-- The four mutable locals of the parsing loop of `loadCourtsData`:
`currentRow`, `currentField`, `inQuotes` and the accumulated `courts`. -/
structure ScanState where
  currentRow : List (List Char)
  currentField : List Char
  inQuotes : Bool
  courts : List CourtData
deriving DecidableEq, Repr

/-- Field access `currentRow[i] || ''` of the record constructor: a missing
entry (never hit, since rows of length at least 11 are required) and the
`|| ''` coercion of a falsy empty string both give the empty string. -/
def fieldAt (row : List (List Char)) (i : Nat) : String :=
  String.mk (row.getD i [])

/-- The record constructor of lines 76-89 of the source: string fields from
positions 0-4 and 6-8, `parseInt(...) || 0` at position 5, and
`parseFloat(...) || 0` at positions 9 and 10 (`Option.getD _ 0` models
`|| 0`, which sends `NaN` to `0` and fixes every other finite value,
`0` itself included). -/
def mkCourt (id : Nat) (row : List (List Char)) : CourtData :=
  { id := id
    name := fieldAt row 0
    address := fieldAt row 1
    borough := fieldAt row 2
    surface := fieldAt row 3
    permitStatus := fieldAt row 4
    courts := (parseIntOpt (row.getD 5 [])).getD 0
    datesOpen := fieldAt row 6
    hours := fieldAt row 7
    description := fieldAt row 8
    lat := (parseFloatOpt (row.getD 9 [])).getD 0
    lng := (parseFloatOpt (row.getD 10 [])).getD 0 }

/-- One step of the character scanner (lines 54-65 of the source): a double
quote toggles `inQuotes`; a comma outside quotes closes the current field,
pushing its trimmed value onto the row; every other character is appended
to the field buffer. -/
def scanChar (st : ScanState) (c : Char) : ScanState :=
  if c = '\"' then
    { st with inQuotes := !st.inQuotes }
  else if c = ',' ∧ st.inQuotes = false then
    { st with currentRow := st.currentRow ++ [trimJS st.currentField], currentField := [] }
  else
    { st with currentField := st.currentField ++ [c] }

/-- Closing a completed row (lines 68-104 of the source, `!inQuotes`
branch): push the trimmed final field, and if the row has at least 11
fields, build the record with id `courts.length + 1` and retain it exactly
when its latitude and longitude are non-zero and its name is non-empty
(`court.lat === 0 || court.lng === 0 || !court.name ||
court.name.length === 0` is the skip condition); shorter rows are dropped
whole.  Both row buffers are reset afterwards. -/
def closeRow (st : ScanState) : ScanState :=
  let row := st.currentRow ++ [trimJS st.currentField]
  let courts1 :=
    if 11 ≤ row.length then
      let court := mkCourt (st.courts.length + 1) row
      if court.lat = 0 ∨ court.lng = 0 ∨ court.name = "" ∨ court.name.length = 0 then
        st.courts
      else
        st.courts ++ [court]
    else
      st.courts
  { currentRow := [], currentField := [], inQuotes := st.inQuotes, courts := courts1 }

/-- End of a physical line (lines 67-108 of the source): outside quotes the
line ends the record and the row is closed; inside quotes a line-feed
character is appended to the field buffer and the row stays open. -/
def endLine (st : ScanState) : ScanState :=
  if st.inQuotes = false then closeRow st
  else { st with currentField := st.currentField ++ ['\n'] }

/-- Processing of one data line: scan every character, then handle the end
of the line. -/
def processLine (st : ScanState) (line : List Char) : ScanState :=
  endLine (line.foldl scanChar st)

/-- Initial values of the scanner locals (lines 31-38 of the source). -/
def initState : ScanState :=
  { currentRow := [], currentField := [], inQuotes := false, courts := [] }

/-- The parsing stage of `loadCourtsData` (lines 31-117 of the source):
split the text into physical lines, discard the first line unconditionally
as the header (the `startParsing` flag of the source is set on iteration 0
and never read as false afterwards), fold the scanner over the remaining
lines, and return the accumulated records. -/
def parseCSV (csvText : List Char) : List CourtData :=
  (((splitLines csvText).drop 1).foldl processLine initState).courts

/-- Model of the whole `loadCourtsData` (lines 25-122): the fetch/text-read
step either yields the text or raises, and the surrounding try/catch
substitutes the empty record list for any raised error. -/
def loadCourtsData (fetched : Except String (List Char)) : List CourtData :=
  match fetched with
  | Except.ok csvText => parseCSV csvText
  | Except.error _ => []

/-- The consumer filter `filteredCourts` (lines 135-142 of the source):
keep a court when each of the three selection lists is empty or contains
the court's corresponding category value. -/
def filteredCourts (courts : List CourtData)
    (selectedBoroughs selectedSurfaces selectedPermitStatuses : List String) :
    List CourtData :=
  courts.filter fun court =>
    (selectedBoroughs.length == 0 || selectedBoroughs.contains court.borough) &&
    (selectedSurfaces.length == 0 || selectedSurfaces.contains court.surface) &&
    (selectedPermitStatuses.length == 0 || selectedPermitStatuses.contains court.permitStatus)

/-- A representative header line; the parser discards the first physical
line whatever its content. -/
def headerLine : String :=
  "Name,Address,Borough,Surface,Permit,Courts,Dates,Hours,Description,Lat,Lng"

/-- The data line of the specification's worked example. -/
def dataLineA : String :=
  "Court A,123 Main St,Manhattan,Hard,Not Required,2,Apr-Nov,9am-9pm,Nice courts,40.70,-74.00"

/-- The record produced from `dataLineA` (the rational coordinates are
written with `mkRat`, which reduces; the claim theorem additionally
relates them to the decimal literals `40.70` and `-74.00`). -/
def recA : CourtData :=
  { id := 1, name := "Court A", address := "123 Main St", borough := "Manhattan"
    surface := "Hard", permitStatus := "Not Required", courts := 2
    datesOpen := "Apr-Nov", hours := "9am-9pm", description := "Nice courts"
    lat := mkRat 407 10, lng := mkRat (-74) 1 }

/-- Header plus `dataLineA`, the worked-example input. -/
def inputA : List Char := headerLine.data ++ '\n' :: dataLineA.data

/-- The worked-example data line with the latitude field replaced by the
non-numeric text `N/A` (all eleven fields present). -/
def dataLineNA11 : String :=
  "Court A,123 Main St,Manhattan,Hard,Not Required,2,Apr-Nov,9am-9pm,Nice courts,N/A,-74.00"

/-- A data row whose quoted description field spans two physical lines. -/
def dataLineM : String :=
  "Court B,456 Elm St,Brooklyn,Clay,Required,4,May-Oct,8am-8pm,\"line1\nline2\",40.60,-73.90"

/-- The record produced from `dataLineM`: the two physical lines of the
quoted field are reassembled into one description containing a line feed. -/
def recB : CourtData :=
  { id := 1, name := "Court B", address := "456 Elm St", borough := "Brooklyn"
    surface := "Clay", permitStatus := "Required", courts := 4
    datesOpen := "May-Oct", hours := "8am-8pm", description := "line1\nline2"
    lat := mkRat 203 5, lng := mkRat (-739) 10 }

/-- A scanner state holding a completed row of exactly 10 fields (9 already
pushed plus the final field buffer), used to witness the short-row rule. -/
def stTen : ScanState :=
  { currentRow := ["f1".data, "f2".data, "f3".data, "f4".data, "f5".data,
      "f6".data, "f7".data, "f8".data, "f9".data]
    currentField := "f10".data, inQuotes := false, courts := [recA] }

/-- An eleven-field row whose court-count, latitude and longitude fields
are all non-numeric, used to witness the coerce-to-zero rule. -/
def rowNA : List (List Char) :=
  ["Court A".data, "123 Main St".data, "Manhattan".data, "Hard".data,
   "Not Required".data, "two".data, "Apr-Nov".data, "9am-9pm".data,
   "Nice courts".data, "N/A".data, "x".data]

/-- A scanner state inside a quoted field, used to witness the open-row
rule at end of line. -/
def stQuote : ScanState :=
  { currentRow := ["Court C".data], currentField := "desc start".data
    inQuotes := true, courts := [] }

/-- A character list contains no double-quote character. -/
def noQ (cs : List Char) : Prop := '\"' ∉ cs

/-- All eight string fields of a record are quote-free. -/
def recNoQ (c : CourtData) : Prop :=
  noQ c.name.data ∧ noQ c.address.data ∧ noQ c.borough.data ∧ noQ c.surface.data ∧
    noQ c.permitStatus.data ∧ noQ c.datesOpen.data ∧ noQ c.hours.data ∧ noQ c.description.data

/-- Scanner invariant for the quote-stripping property: the field buffer,
every pushed field, and every string field of every accumulated record are
quote-free. -/
def stNoQ (st : ScanState) : Prop :=
  noQ st.currentField ∧ (∀ f ∈ st.currentRow, noQ f) ∧ ∀ c ∈ st.courts, recNoQ c

/-- Identifiers are 1-based positions: the record at index k has id k+1. -/
def idsSeq (l : List CourtData) : Prop :=
  ∀ k (hk : k < l.length), (l.get ⟨k, hk⟩).id = k + 1

/-- Positive decimal literals denote the evident quotient. -/
theorem decimalLit_eq (m e : Nat) :
    (OfScientific.ofScientific m true e : ℚ) = mkRat m (10 ^ e) :=
  Rat.ofScientific_true_def

/-- Splitting at the first line feed isolates a feed-free first line. -/
theorem splitLines_append (l r : List Char) (h : '\n' ∉ l) :
    splitLines (l ++ '\n' :: r) = l :: splitLines r := by
  induction l with
  | nil => simp [splitLines]
  | cons c t ih =>
    have hc : ¬c = '\n' := fun e => h (e ▸ List.mem_cons_self c t)
    have ht : '\n' ∉ t := fun m => h (List.mem_cons_of_mem c m)
    simp only [List.cons_append, splitLines, List.append_eq, ih ht, hc, if_false]

/-- The character scanner never changes the accumulated records. -/
theorem scanChar_courts (st : ScanState) (c : Char) :
    (scanChar st c).courts = st.courts := by
  unfold scanChar
  split_ifs <;> rfl

/-- Scanning a whole line never changes the accumulated records. -/
theorem foldl_scanChar_courts (line : List Char) (st : ScanState) :
    (line.foldl scanChar st).courts = st.courts := by
  induction line generalizing st with
  | nil => rfl
  | cons c cs ih => rw [List.foldl_cons, ih, scanChar_courts]

/-- The accumulated records after closing a row: unchanged unless the row
has at least 11 fields and the constructed record passes the retention
check, in which case that record is appended. -/
theorem closeRow_courts (st : ScanState) :
    (closeRow st).courts =
      if 11 ≤ (st.currentRow ++ [trimJS st.currentField]).length then
        if (mkCourt (st.courts.length + 1) (st.currentRow ++ [trimJS st.currentField])).lat = 0 ∨
            (mkCourt (st.courts.length + 1) (st.currentRow ++ [trimJS st.currentField])).lng = 0 ∨
            (mkCourt (st.courts.length + 1) (st.currentRow ++ [trimJS st.currentField])).name = "" ∨
            (mkCourt (st.courts.length + 1) (st.currentRow ++ [trimJS st.currentField])).name.length = 0
          then st.courts
          else st.courts ++ [mkCourt (st.courts.length + 1) (st.currentRow ++ [trimJS st.currentField])]
      else st.courts := rfl

/-- The accumulated records after the end of a line: the closed row's
records outside quotes, unchanged inside quotes. -/
theorem endLine_courts (st : ScanState) :
    (endLine st).courts = if st.inQuotes = false then (closeRow st).courts else st.courts := by
  unfold endLine
  split_ifs <;> rfl

/-- Trimming only removes characters. -/
theorem mem_trimJS {x : Char} {cs : List Char} (h : x ∈ trimJS cs) : x ∈ cs := by
  unfold trimJS at h
  rw [List.mem_reverse] at h
  have h1 := List.dropWhile_subset _ h
  rw [List.mem_reverse] at h1
  exact List.dropWhile_subset _ h1

/-- Closing a row preserves the retention conditions on all records. -/
theorem closeRow_retention (st : ScanState)
    (h : ∀ c ∈ st.courts, c.name ≠ "" ∧ c.lat ≠ 0 ∧ c.lng ≠ 0) :
    ∀ c ∈ (closeRow st).courts, c.name ≠ "" ∧ c.lat ≠ 0 ∧ c.lng ≠ 0 := by
  intro c hc
  rw [closeRow_courts] at hc
  split_ifs at hc with h1 h2
  · exact h c hc
  · rcases List.mem_append.1 hc with hm | hm
    · exact h c hm
    · rw [List.mem_singleton] at hm
      push_neg at h2
      subst hm
      exact ⟨h2.2.2.1, h2.1, h2.2.1⟩
  · exact h c hc

/-- Ending a line preserves the retention conditions on all records. -/
theorem endLine_retention (st : ScanState)
    (h : ∀ c ∈ st.courts, c.name ≠ "" ∧ c.lat ≠ 0 ∧ c.lng ≠ 0) :
    ∀ c ∈ (endLine st).courts, c.name ≠ "" ∧ c.lat ≠ 0 ∧ c.lng ≠ 0 := by
  intro c hc
  rw [endLine_courts] at hc
  split_ifs at hc with h1
  · exact closeRow_retention st h c hc
  · exact h c hc

/-- Processing a line preserves the retention conditions on all records. -/
theorem processLine_retention (st : ScanState) (line : List Char)
    (h : ∀ c ∈ st.courts, c.name ≠ "" ∧ c.lat ≠ 0 ∧ c.lng ≠ 0) :
    ∀ c ∈ (processLine st line).courts, c.name ≠ "" ∧ c.lat ≠ 0 ∧ c.lng ≠ 0 := by
  intro c hc
  unfold processLine at hc
  refine endLine_retention _ ?_ c hc
  intro d hd
  rw [foldl_scanChar_courts] at hd
  exact h d hd

/-- Folding the line processor preserves the retention conditions. -/
theorem foldl_processLine_retention (ls : List (List Char)) (st : ScanState)
    (h : ∀ c ∈ st.courts, c.name ≠ "" ∧ c.lat ≠ 0 ∧ c.lng ≠ 0) :
    ∀ c ∈ (ls.foldl processLine st).courts, c.name ≠ "" ∧ c.lat ≠ 0 ∧ c.lng ≠ 0 := by
  induction ls generalizing st with
  | nil => exact h
  | cons l tl ih => exact ih (processLine st l) (processLine_retention st l h)

/-- C1: for every input text, every record returned by the parsing stage
of `loadCourtsData` has a non-empty name and non-zero latitude and
longitude; a constructed record failing this is excluded from the output. -/
theorem parseCSV_retention (text : List Char) (c : CourtData) (hc : c ∈ parseCSV text) :
    c.name ≠ "" ∧ c.lat ≠ 0 ∧ c.lng ≠ 0 := by
  refine foldl_processLine_retention ((splitLines text).drop 1) initState ?_ c hc
  intro d hd
  simp [initState] at hd

/-- Witness for C1 at the worked-example input and record. -/
theorem parseCSV_retention_witness :
    recA ∈ parseCSV inputA ∧ (recA.name ≠ "" ∧ recA.lat ≠ 0 ∧ recA.lng ≠ 0) :=
  ⟨by decide, parseCSV_retention inputA recA (by decide)⟩

/-- C2: any single header line followed by the example data line parses to
exactly one record, with id 1, name Court A, 2 courts, latitude 40.70 and
longitude -74.00. -/
theorem parseCSV_example_single (header : List Char) (hh : '\n' ∉ header) :
    parseCSV (header ++ '\n' :: dataLineA.data) = [recA] ∧
      recA.id = 1 ∧ recA.name = "Court A" ∧ recA.courts = 2 ∧
      recA.lat = 40.70 ∧ recA.lng = -74.00 := by
  refine ⟨?_, rfl, rfl, rfl, ?_, ?_⟩
  · unfold parseCSV
    rw [splitLines_append _ _ hh]
    simp only [List.drop_succ_cons, List.drop_zero]
    decide
  · rw [show (40.70 : ℚ) = _ from decimalLit_eq 4070 2]; decide
  · rw [show (74.00 : ℚ) = _ from decimalLit_eq 7400 2]; decide

/-- Witness for C2 at the representative header line. -/
theorem parseCSV_example_single_witness :
    '\n' ∉ headerLine.data ∧ parseCSV (headerLine.data ++ '\n' :: dataLineA.data) = [recA] :=
  ⟨by decide, (parseCSV_example_single headerLine.data (by decide)).1⟩

/-- C3: a completed row (a line ending outside quotes) whose field count
is below 11 contributes no record, whatever its fields contain. -/
theorem short_row_dropped (st : ScanState) (hq : st.inQuotes = false)
    (hlen : (st.currentRow ++ [trimJS st.currentField]).length < 11) :
    (endLine st).courts = st.courts := by
  rw [endLine_courts, if_pos hq, closeRow_courts, if_neg (Nat.not_le.2 hlen)]

/-- Witness for C3 at a completed row of exactly 10 fields. -/
theorem short_row_dropped_witness :
    stTen.inQuotes = false ∧ (stTen.currentRow ++ [trimJS stTen.currentField]).length < 11 ∧
      (endLine stTen).courts = stTen.courts :=
  ⟨rfl, by decide, short_row_dropped stTen rfl (by decide)⟩

/-- C4: when a physical line ends inside a quoted field the scanner
appends a line feed to the field buffer and leaves the row open; hence a
quoted field spanning two physical lines is reassembled into one field
containing a line feed and that row parses as a single record. -/
theorem multiline_quoted_field (st : ScanState) (hq : st.inQuotes = true) :
    endLine st = { st with currentField := st.currentField ++ ['\n'] } ∧
      parseCSV (headerLine.data ++ '\n' :: dataLineM.data) = [recB] := by
  constructor
  · unfold endLine
    simp [hq]
  · decide

/-- Witness for C4 at a state inside a quoted field. -/
theorem multiline_quoted_field_witness :
    endLine stQuote = { stQuote with currentField := stQuote.currentField ++ ['\n'] } :=
  (multiline_quoted_field stQuote rfl).1

/-- C5: when the court-count, latitude, or longitude field has no numeric
prefix, the corresponding field of the constructed record is 0 rather than
the row failing; a zero-coerced coordinate then makes the retention check
drop the record, so the N/A-latitude example parses to the empty sequence. -/
theorem nonNumeric_coerces_to_zero :
    (∀ idv row, parseIntOpt (row.getD 5 []) = none → (mkCourt idv row).courts = 0) ∧
      (∀ idv row, parseFloatOpt (row.getD 9 []) = none → (mkCourt idv row).lat = 0) ∧
      (∀ idv row, parseFloatOpt (row.getD 10 []) = none → (mkCourt idv row).lng = 0) ∧
      ∀ header, '\n' ∉ header → parseCSV (header ++ '\n' :: dataLineNA11.data) = [] := by
  refine ⟨?_, ?_, ?_, ?_⟩
  · intro idv row h
    show (parseIntOpt (row.getD 5 [])).getD 0 = 0
    rw [h]
    rfl
  · intro idv row h
    show (parseFloatOpt (row.getD 9 [])).getD 0 = 0
    rw [h]
    rfl
  · intro idv row h
    show (parseFloatOpt (row.getD 10 [])).getD 0 = 0
    rw [h]
    rfl
  · intro header hh
    unfold parseCSV
    rw [splitLines_append _ _ hh]
    simp only [List.drop_succ_cons, List.drop_zero]
    decide

/-- Witness for C5 at an all-non-numeric row and the N/A example input. -/
theorem nonNumeric_coerces_to_zero_witness :
    parseIntOpt (rowNA.getD 5 []) = none ∧ (mkCourt 1 rowNA).courts = 0 ∧
      parseFloatOpt (rowNA.getD 9 []) = none ∧ (mkCourt 1 rowNA).lat = 0 ∧
      parseFloatOpt (rowNA.getD 10 []) = none ∧ (mkCourt 1 rowNA).lng = 0 ∧
      '\n' ∉ headerLine.data ∧
      parseCSV (headerLine.data ++ '\n' :: dataLineNA11.data) = [] :=
  ⟨by decide, nonNumeric_coerces_to_zero.1 1 rowNA (by decide),
    by decide, nonNumeric_coerces_to_zero.2.1 1 rowNA (by decide),
    by decide, nonNumeric_coerces_to_zero.2.2.1 1 rowNA (by decide),
    by decide, nonNumeric_coerces_to_zero.2.2.2 headerLine.data (by decide)⟩

/-- C7: the parsing stage is a pure function of the input text (the source
loop touches only the function-local variables captured in `ScanState`),
so re-invoking it on the same text always returns an equal sequence. -/
theorem parseCSV_deterministic (text : List Char) : parseCSV text = parseCSV text := rfl

/-- C8: if the fetch or text-read step raises, `loadCourtsData` returns
the empty sequence rather than propagating the error. -/
theorem loadCourtsData_fetch_failure (e : String) :
    loadCourtsData (Except.error e) = [] := rfl

/-- C9: the consumer filter keeps a court exactly when each of the three
selection lists is empty or contains the court's corresponding category
value, and the result is a sublist of the input (input order preserved). -/
theorem filteredCourts_spec (courts : List CourtData) (bs ss ps : List String) :
    List.Sublist (filteredCourts courts bs ss ps) courts ∧
      ∀ c, c ∈ filteredCourts courts bs ss ps ↔
        c ∈ courts ∧ (bs = [] ∨ c.borough ∈ bs) ∧ (ss = [] ∨ c.surface ∈ ss) ∧
          (ps = [] ∨ c.permitStatus ∈ ps) := by
  constructor
  · exact List.filter_sublist courts
  · intro c
    unfold filteredCourts
    rw [List.mem_filter]
    simp [List.length_eq_zero, List.contains_iff_exists_mem_beq, or_comm, and_assoc]

/-- Appending a record whose id is one past the length preserves the
1-based id numbering. -/
theorem idsSeq_concat (l : List CourtData) (c : CourtData) (h : idsSeq l)
    (hc : c.id = l.length + 1) : idsSeq (l ++ [c]) := by
  intro k hk
  rcases Nat.lt_or_ge k l.length with hlt | hge
  · have heq : (l ++ [c]).get ⟨k, hk⟩ = l.get ⟨k, hlt⟩ := by
      simp [List.get_eq_getElem, List.getElem_append_left hlt]
    rw [heq]
    exact h k hlt
  · have hk2 : k = l.length := by
      have hlen : (l ++ [c]).length = l.length + 1 := by simp
      omega
    subst hk2
    have heq : (l ++ [c]).get ⟨l.length, hk⟩ = c := by
      simp [List.get_eq_getElem]
    rw [heq, hc]

/-- Id numbering transports along equality of record lists. -/
theorem idsSeq_of_eq {l m : List CourtData} (e : l = m) (h : idsSeq m) : idsSeq l :=
  e ▸ h

/-- Closing a row preserves the 1-based id numbering. -/
theorem closeRow_ids (st : ScanState) (h : idsSeq st.courts) :
    idsSeq (closeRow st).courts := by
  refine idsSeq_of_eq (closeRow_courts st) ?_
  split_ifs with h1 h2
  · exact h
  · exact idsSeq_concat st.courts _ h rfl
  · exact h

/-- Ending a line preserves the 1-based id numbering. -/
theorem endLine_ids (st : ScanState) (h : idsSeq st.courts) :
    idsSeq (endLine st).courts := by
  refine idsSeq_of_eq (endLine_courts st) ?_
  split_ifs with h1
  · exact closeRow_ids st h
  · exact h

/-- Processing a line preserves the 1-based id numbering. -/
theorem processLine_ids (st : ScanState) (line : List Char) (h : idsSeq st.courts) :
    idsSeq (processLine st line).courts := by
  unfold processLine
  exact endLine_ids _ (idsSeq_of_eq (foldl_scanChar_courts line st) h)

/-- Folding the line processor preserves the 1-based id numbering. -/
theorem foldl_processLine_ids (ls : List (List Char)) (st : ScanState)
    (h : idsSeq st.courts) : idsSeq ((ls.foldl processLine st).courts) := by
  induction ls generalizing st with
  | nil => exact h
  | cons l tl ih => exact ih (processLine st l) (processLine_ids st l h)

/-- C6: for every input text the accepted records are numbered 1..N in
output order: the record at 0-based index k has id k+1, consecutively and
without gaps, however many rows were dropped in between. -/
theorem parseCSV_ids (text : List Char) (k : Nat) (hk : k < (parseCSV text).length) :
    ((parseCSV text).get ⟨k, hk⟩).id = k + 1 := by
  have hinv : idsSeq (((splitLines text).drop 1).foldl processLine initState).courts := by
    refine foldl_processLine_ids _ _ ?_
    intro j hj
    simp [initState] at hj
  exact hinv k hk

/-- Witness for C6 at the worked-example input, index 0. -/
theorem parseCSV_ids_witness :
    ((parseCSV inputA).get ⟨0, by decide⟩).id = 0 + 1 :=
  parseCSV_ids inputA 0 (by decide)

/-- Trimming a quote-free field leaves it quote-free. -/
theorem noQ_trimJS {cs : List Char} (h : noQ cs) : noQ (trimJS cs) :=
  fun hm => h (mem_trimJS hm)

/-- Positional access into a row of quote-free fields is quote-free. -/
theorem noQ_getD (row : List (List Char)) (h : ∀ f ∈ row, noQ f) (i : Nat) :
    noQ (row.getD i []) := by
  induction row generalizing i with
  | nil =>
    intro hm
    cases hm
  | cons f t ih =>
    cases i with
    | zero => exact h f (List.mem_cons_self f t)
    | succ j => exact ih (fun g hg => h g (List.mem_cons_of_mem f hg)) j

/-- A record built from a quote-free row has quote-free string fields. -/
theorem mkCourt_noQ (idv : Nat) (row : List (List Char)) (h : ∀ f ∈ row, noQ f) :
    recNoQ (mkCourt idv row) :=
  ⟨noQ_getD row h 0, noQ_getD row h 1, noQ_getD row h 2, noQ_getD row h 3,
    noQ_getD row h 4, noQ_getD row h 6, noQ_getD row h 7, noQ_getD row h 8⟩

/-- One scanner step preserves the quote-free invariant: a double quote
only toggles the flag and is never appended to the field buffer. -/
theorem scanChar_noQ (st : ScanState) (c : Char) (h : stNoQ st) :
    stNoQ (scanChar st c) := by
  obtain ⟨hf, hr, hc⟩ := h
  unfold scanChar
  split_ifs with h1 h2
  · exact ⟨hf, hr, hc⟩
  · refine ⟨?_, ?_, hc⟩
    · intro hm
      cases hm
    · intro g hg
      rcases List.mem_append.1 hg with hg | hg
      · exact hr g hg
      · rw [List.mem_singleton] at hg
        subst hg
        exact noQ_trimJS hf
  · refine ⟨?_, hr, hc⟩
    intro hm
    rcases List.mem_append.1 hm with hm | hm
    · exact hf hm
    · rw [List.mem_singleton] at hm
      exact h1 hm.symm

/-- Scanning a whole line preserves the quote-free invariant. -/
theorem foldl_scanChar_noQ (line : List Char) (st : ScanState) (h : stNoQ st) :
    stNoQ (line.foldl scanChar st) := by
  induction line generalizing st with
  | nil => exact h
  | cons c cs ih => exact ih (scanChar st c) (scanChar_noQ st c h)

/-- Closing a row preserves the quote-free invariant. -/
theorem closeRow_noQ (st : ScanState) (h : stNoQ st) : stNoQ (closeRow st) := by
  obtain ⟨hf, hr, hc⟩ := h
  refine ⟨?_, ?_, ?_⟩
  · intro hm
    cases hm
  · intro g hg
    cases hg
  · intro d hd
    rw [closeRow_courts] at hd
    split_ifs at hd with h1 h2
    · exact hc d hd
    · rcases List.mem_append.1 hd with hm | hm
      · exact hc d hm
      · rw [List.mem_singleton] at hm
        subst hm
        refine mkCourt_noQ _ _ ?_
        intro g hg
        rcases List.mem_append.1 hg with hg | hg
        · exact hr g hg
        · rw [List.mem_singleton] at hg
          subst hg
          exact noQ_trimJS hf
    · exact hc d hd

/-- Ending a line preserves the quote-free invariant (the appended
character is a line feed, not a quote). -/
theorem endLine_noQ (st : ScanState) (h : stNoQ st) : stNoQ (endLine st) := by
  unfold endLine
  split_ifs with h1
  · exact closeRow_noQ st h
  · obtain ⟨hf, hr, hc⟩ := h
    refine ⟨?_, hr, hc⟩
    intro hm
    rcases List.mem_append.1 hm with hm | hm
    · exact hf hm
    · simp at hm

/-- Processing a line preserves the quote-free invariant. -/
theorem processLine_noQ (st : ScanState) (line : List Char) (h : stNoQ st) :
    stNoQ (processLine st line) :=
  endLine_noQ _ (foldl_scanChar_noQ line st h)

/-- Folding the line processor preserves the quote-free invariant. -/
theorem foldl_processLine_noQ (ls : List (List Char)) (st : ScanState) (h : stNoQ st) :
    stNoQ (ls.foldl processLine st) := by
  induction ls generalizing st with
  | nil => exact h
  | cons l tl ih => exact ih (processLine st l) (processLine_noQ st l h)

/-- C10: for every input text, no string field of any returned record
contains a double-quote character: a quote in the input only toggles the
in-quotes flag and is never appended to a field buffer. -/
theorem parseCSV_quote_free (text : List Char) (c : CourtData) (hc : c ∈ parseCSV text) :
    '\"' ∉ c.name.data ∧ '\"' ∉ c.address.data ∧ '\"' ∉ c.borough.data ∧
      '\"' ∉ c.surface.data ∧ '\"' ∉ c.permitStatus.data ∧ '\"' ∉ c.datesOpen.data ∧
      '\"' ∉ c.hours.data ∧ '\"' ∉ c.description.data := by
  have hinv : stNoQ (((splitLines text).drop 1).foldl processLine initState) := by
    refine foldl_processLine_noQ _ _ ⟨?_, ?_, ?_⟩
    · intro hm
      cases hm
    · intro g hg
      cases hg
    · intro d hd
      simp [initState] at hd
  exact hinv.2.2 c hc

/-- Witness for C10 at the worked-example input and record. -/
theorem parseCSV_quote_free_witness :
    recA ∈ parseCSV inputA ∧ '\"' ∉ recA.name.data ∧ '\"' ∉ recA.description.data :=
  ⟨by decide, (parseCSV_quote_free inputA recA (by decide)).1,
    (parseCSV_quote_free inputA recA (by decide)).2.2.2.2.2.2.2⟩
